import Mathlib

/-!
# Verification of the AGCOD SigV4 signing client (woodstock-tokyo/go-aws-sdk)

Shallow embedding of the `agcod` package: the `Service`/`context` data model,
the response-status handling of the three HTTP operations, and the AWS
Signature Version 4 signing algorithm applied by `SetSignatureV4`.

The signing algorithm itself lives in the vendored AWS SDK (outside this
repository's sources); it is modelled here from the specification's step-by-step
description (canonical request, string to sign, HMAC-SHA256 key-derivation
chain, Authorization header assembly), with SHA-256 and HMAC-SHA256 implemented
in full so that the known-vector theorems are checked bit-exactly.
-/

namespace Agcod

/-! ## Bytes and hex -/

/-- ASCII bytes of a string. All strings this development signs are ASCII, so
the code points are the bytes. -/
def strBytes (s : String) : List Nat := s.toList.map Char.toNat

/-- Lowercase hex digit for a value below 16. -/
def hexDigit (n : Nat) : Char :=
  if n < 10 then Char.ofNat (48 + n) else Char.ofNat (87 + n)

/-- Two lowercase hex digits of one byte. -/
def hexByte (b : Nat) : List Char := [hexDigit (b / 16), hexDigit (b % 16)]

/-- Lowercase hex digits of a byte list, as characters. -/
def hexChars (bs : List Nat) : List Char :=
  bs.foldr (fun b acc => hexByte b ++ acc) []

/-- Lowercase hex encoding of a byte list. -/
def hexStr (bs : List Nat) : String := String.mk (hexChars bs)

/-! ## SHA-256 (FIPS 180-4), over byte lists, 32-bit words as `Nat mod 2^32` -/

/-- 2^32, the word modulus. -/
def M32 : Nat := 4294967296

/-- Right rotation of a 32-bit word. -/
def rotr (n x : Nat) : Nat := ((x >>> n) ||| (x <<< (32 - n))) % M32

/-- The 64 SHA-256 round constants. -/
def sha256K : List Nat :=
  [1116352408, 1899447441, 3049323471, 3921009573, 961987163, 1508970993,
   2453635748, 2870763221, 3624381080, 310598401, 607225278, 1426881987,
   1925078388, 2162078206, 2614888103, 3248222580, 3835390401, 4022224774,
   264347078, 604807628, 770255983, 1249150122, 1555081692, 1996064986,
   2554220882, 2821834349, 2952996808, 3210313671, 3336571891, 3584528711,
   113926993, 338241895, 666307205, 773529912, 1294757372, 1396182291,
   1695183700, 1986661051, 2177026350, 2456956037, 2730485921, 2820302411,
   3259730800, 3345764771, 3516065817, 3600352804, 4094571909, 275423344,
   430227734, 506948616, 659060556, 883997877, 958139571, 1322822218,
   1537002063, 1747873779, 1955562222, 2024104815, 2227730452, 2361852424,
   2428436474, 2756734187, 3204031479, 3329325298]

/-- The SHA-256 initial hash state. -/
def sha256Init : List Nat :=
  [1779033703, 3144134277, 1013904242, 2773480762,
   1359893119, 2600822924, 528734635, 1541459225]

/-- `n` big-endian bytes of `x`. -/
def beBytes : Nat → Nat → List Nat
  | 0, _ => []
  | m + 1, x => beBytes m (x >>> 8) ++ [x &&& 255]

/-- Group consecutive 4-byte runs into big-endian 32-bit words. -/
def toWords : List Nat → List Nat
  | b0 :: b1 :: b2 :: b3 :: rest =>
      (((b0 * 256 + b1) * 256 + b2) * 256 + b3) :: toWords rest
  | _ => []

/-- Split a byte list into 64-byte blocks; `fuel` bounds the recursion and is
instantiated with the list length. -/
def chunk64 : Nat → List Nat → List (List Nat)
  | 0, _ => []
  | _, [] => []
  | fuel + 1, l => l.take 64 :: chunk64 fuel (l.drop 64)

/-- SHA-256 padding: append `0x80`, zeros to 56 mod 64, then the 64-bit
big-endian bit length. -/
def padMessage (msg : List Nat) : List Nat :=
  let len := msg.length
  let zeros := (119 - len % 64) % 64
  msg ++ 128 :: List.replicate zeros 0 ++ beBytes 8 (8 * len)

/-- Message-schedule extension: `ws` holds the schedule so far in reverse
order (most recent word first); each step prepends one new word. -/
def extendSchedule : Nat → List Nat → List Nat
  | 0, ws => ws
  | fuel + 1, ws =>
      let g := fun i => ws.getD i 0
      let w15 := g 14
      let w2 := g 1
      let s0 := (rotr 7 w15) ^^^ (rotr 18 w15) ^^^ (w15 >>> 3)
      let s1 := (rotr 17 w2) ^^^ (rotr 19 w2) ^^^ (w2 >>> 10)
      extendSchedule fuel (((s1 + g 6 + s0 + g 15) % M32) :: ws)

/-- One round of the SHA-256 compression function on the 8-word working
state, consuming one (round constant, schedule word) pair. -/
def sha256Round (st : Nat × Nat × Nat × Nat × Nat × Nat × Nat × Nat)
    (kw : Nat × Nat) : Nat × Nat × Nat × Nat × Nat × Nat × Nat × Nat :=
  let (a, b, c, d, e, f, g, h) := st
  let s1 := (rotr 6 e) ^^^ (rotr 11 e) ^^^ (rotr 25 e)
  let ch := (e &&& f) ^^^ ((M32 - 1 - e) &&& g)
  let t1 := (h + s1 + ch + kw.1 + kw.2) % M32
  let s0 := (rotr 2 a) ^^^ (rotr 13 a) ^^^ (rotr 22 a)
  let mj := (a &&& b) ^^^ (a &&& c) ^^^ (b &&& c)
  let t2 := (s0 + mj) % M32
  ((t1 + t2) % M32, a, b, c, (d + t1) % M32, e, f, g)

/-- Compress one 64-byte block into the running 8-word hash state. -/
def sha256Compress (hs : List Nat) (block : List Nat) : List Nat :=
  let w := (extendSchedule 48 (toWords block).reverse).reverse
  let g := fun i => hs.getD i 0
  let st0 := (g 0, g 1, g 2, g 3, g 4, g 5, g 6, g 7)
  let fin := (sha256K.zip w).foldl sha256Round st0
  [(g 0 + fin.1) % M32, (g 1 + fin.2.1) % M32, (g 2 + fin.2.2.1) % M32,
   (g 3 + fin.2.2.2.1) % M32, (g 4 + fin.2.2.2.2.1) % M32, (g 5 + fin.2.2.2.2.2.1) % M32,
   (g 6 + fin.2.2.2.2.2.2.1) % M32, (g 7 + fin.2.2.2.2.2.2.2) % M32]

/-- SHA-256 digest (32 bytes) of a byte list. -/
def sha256Bytes (msg : List Nat) : List Nat :=
  ((chunk64 (padMessage msg).length (padMessage msg)).foldl sha256Compress
    sha256Init).foldr (fun w acc => beBytes 4 w ++ acc) []

/-- Lowercase hex SHA-256 of a string's bytes. -/
def sha256Hex (s : String) : String := hexStr (sha256Bytes (strBytes s))

/-! ## HMAC-SHA256 (RFC 2104), block size 64 bytes -/

/-- HMAC-SHA256 of a message under a key, both as byte lists. -/
def hmacSha256 (key msg : List Nat) : List Nat :=
  let k0 := if 64 < key.length then sha256Bytes key else key
  let kp := k0 ++ List.replicate (64 - k0.length) 0
  let inner := sha256Bytes (kp.map (fun b => b ^^^ 54) ++ msg)
  sha256Bytes (kp.map (fun b => b ^^^ 92) ++ inner)

/-! ## ASCII string utilities -/

/-- ASCII lowercase of one character. -/
def asciiLowerChar (c : Char) : Char :=
  if 65 ≤ c.toNat ∧ c.toNat ≤ 90 then Char.ofNat (c.toNat + 32) else c

/-- ASCII lowercase of a string. -/
def lowerStr (s : String) : String := String.mk (s.toList.map asciiLowerChar)

/-- ASCII whitespace, as trimmed from header values. -/
def isAsciiSpace (c : Char) : Bool := c.toNat = 32 ∨ c.toNat = 9

/-- Trim ASCII whitespace from both ends of a string. -/
def trimStr (s : String) : String :=
  String.mk (((s.toList.dropWhile isAsciiSpace).reverse.dropWhile isAsciiSpace).reverse)

/-- Join strings with a separator. -/
def joinSep (sep : String) : List String → String
  | [] => ""
  | [x] => x
  | x :: rest => x ++ sep ++ joinSep sep rest

/-- Lexicographic `≤` on byte lists, as a Boolean. -/
def listLeB : List Nat → List Nat → Bool
  | [], _ => true
  | _ :: _, [] => false
  | x :: xs, y :: ys => if x < y then true else if y < x then false else listLeB xs ys

/-- Lexicographic `≤` on strings, through their code points. -/
def strLeB (a b : String) : Bool := listLeB (strBytes a) (strBytes b)

/-- The sorting order on header names: lexicographic on code points. -/
def strLe (a b : String) : Prop := strLeB a b = true

instance : DecidableRel strLe := fun a b => inferInstanceAs (Decidable (strLeB a b = true))

/-- Collapse equal adjacent elements of an already-sorted list. -/
def dedupSorted (l : List String) : List String := l.destutter (· ≠ ·)

/-! ## RFC 3986 percent-encoding (uppercase hex), as the canonical URI needs -/

/-- Uppercase hex digit for a value below 16. -/
def hexDigitU (n : Nat) : Char :=
  if n < 10 then Char.ofNat (48 + n) else Char.ofNat (55 + n)

/-- RFC 3986 unreserved byte: ALPHA / DIGIT / "-" / "." / "_" / "~". -/
def isUnreserved (b : Nat) : Bool :=
  (65 ≤ b ∧ b ≤ 90) ∨ (97 ≤ b ∧ b ≤ 122) ∨ (48 ≤ b ∧ b ≤ 57) ∨
    b = 45 ∨ b = 46 ∨ b = 95 ∨ b = 126

/-- Percent-encode one byte. -/
def pctEncode (b : Nat) : List Char := ['%', hexDigitU (b / 16), hexDigitU (b % 16)]

/-- Canonical URI path: every byte of every segment percent-encoded per
RFC 3986, with the segment separator `/` (byte 47) preserved. -/
def escapePath (path : String) : String :=
  String.mk ((strBytes path).foldr
    (fun b acc => (if isUnreserved b ∨ b = 47 then [Char.ofNat b] else pctEncode b) ++ acc) [])

/-- Percent-encode a full query component (the separator too). -/
def escapeComponent (s : String) : String :=
  String.mk ((strBytes s).foldr
    (fun b acc => (if isUnreserved b then [Char.ofNat b] else pctEncode b) ++ acc) [])

/-! ## Timestamp formatting (Unix seconds, UTC) -/

/-- Civil date (y, m, d) from days since 1970-01-01, proleptic Gregorian. -/
def civilFromDays (days : Nat) : Nat × Nat × Nat :=
  let z := days + 719468
  let era := z / 146097
  let doe := z % 146097
  let yoe := (doe - doe / 1460 + doe / 36524 - doe / 146096) / 365
  let doy := doe - (365 * yoe + yoe / 4 - yoe / 100)
  let mp := (5 * doy + 2) / 153
  let d := doy - (153 * mp + 2) / 5 + 1
  let m := if mp < 10 then mp + 3 else mp - 9
  (yoe + era * 400 + (if m ≤ 2 then 1 else 0), m, d)

/-- A natural number as decimal text, two digits minimum. -/
def pad2 (n : Nat) : String := if n < 10 then "0" ++ toString n else toString n

/-- `YYYYMMDD` date stamp of a Unix timestamp (the credential-scope date). -/
def dateStamp (t : Nat) : String :=
  let (y, m, d) := civilFromDays (t / 86400)
  toString y ++ pad2 m ++ pad2 d

/-- ISO 8601 basic timestamp `YYYYMMDDTHHMMSSZ` of a Unix timestamp. -/
def isoBasic (t : Nat) : String :=
  let secs := t % 86400
  dateStamp t ++ "T" ++ pad2 (secs / 3600) ++ pad2 (secs % 3600 / 60) ++ pad2 (secs % 60) ++ "Z"

/-! ## The `agcod` data model (`Service`, `context`, constructor and setters)

From `src/agcod/agcod.go`. The Go `context` field is a pointer; `Option`
models nilness, and the `check` panic is modelled as the error branch of
`Except`. -/

/-- The `context` struct: endpoint, region and other info. -/
structure SigContext where
  region : String
  token : String
  service : String
  partnerID : String

/-- `new(context)`: the zero value every field empty. -/
def initContext : SigContext :=
  { region := "", token := "", service := "", partnerID := "" }

/-- The `Service` struct: context pointer and credentials. -/
structure Service where
  context : Option SigContext
  accessKey : String
  accessSecret : String
  baseURL : String

/-- `NewService`: fresh service with a newly allocated (non-nil) context. -/
def NewService (key secret baseURL : String) : Service :=
  { context := some initContext, accessKey := key, accessSecret := secret,
    baseURL := baseURL }

/-- `context.check`: panics (here: errors) exactly when the pointer is nil. -/
def checkContext : Option SigContext → Except String SigContext
  | none => .error "invalid context"
  | some c => .ok c

/-- `SetRegion`: check the context, then update its region. -/
def SetRegion (s : Service) (region : String) : Except String Service :=
  (checkContext s.context).map fun c => { s with context := some { c with region := region } }

/-- `SetToken`: check the context, then update its token. -/
def SetToken (s : Service) (token : String) : Except String Service :=
  (checkContext s.context).map fun c => { s with context := some { c with token := token } }

/-- `SetService`: check the context, then update its service name. -/
def SetService (s : Service) (service : String) : Except String Service :=
  (checkContext s.context).map fun c => { s with context := some { c with service := service } }

/-- `SetPartnerID`: check the context, then update its partner id. -/
def SetPartnerID (s : Service) (partnerID : String) : Except String Service :=
  (checkContext s.context).map fun c => { s with context := some { c with partnerID := partnerID } }

/-! ## HTTP requests

A request is its method, URL (host and path), parsed query, header list and
body. The body models Go's `io.ReadCloser` stream: absent (`nil` in Go),
readable bytes, or a stream whose read fails with an error. -/

/-- A request body: absent, in-memory bytes, or a failing stream. -/
inductive Body where
  | nil : Body
  | bytes : List Nat → Body
  | failing : String → Body
deriving DecidableEq

/-- Host and path of a request URL. -/
structure HttpURL where
  host : String
  path : String
deriving DecidableEq

/-- An outgoing HTTP request. -/
structure Request where
  method : String
  url : HttpURL
  query : List (String × String)
  headers : List (String × String)
  body : Body
deriving DecidableEq

/-- The bytes the payload hash covers: empty when there is no body. -/
def bodyBytes : Body → List Nat
  | .nil => []
  | .bytes bs => bs
  | .failing _ => []

/-- Case-insensitive first-match lookup in a header list. -/
def findHeader (hs : List (String × String)) (name : String) : Option String :=
  (hs.find? fun p => decide (lowerStr p.1 = lowerStr name)).map Prod.snd

/-- Case-insensitive header lookup, like Go's `Header.Get`. -/
def getHeader (req : Request) (name : String) : Option String :=
  findHeader req.headers name

/-- Go's `Header.Set`: drop every entry carried under the (case-insensitive)
name, then add the new entry. -/
def setHeader (hs : List (String × String)) (n v : String) : List (String × String) :=
  hs.filter (fun p => decide (lowerStr p.1 ≠ lowerStr n)) ++ [(n, v)]

/-! ## SigV4 canonicalization

Modelled from the spec: the canonical-request / string-to-sign / key-derivation
steps of the AWS Signature Version 4 signer that `SetSignatureV4` delegates to
(the signer itself is vendored SDK code outside this repository). -/

/-- The lower-cased names of a header list, in input order. -/
def headerNamesLower (hs : List (String × String)) : List String :=
  hs.map fun p => lowerStr p.1

/-- Signed-header names: lower-cased, sorted lexicographically, deduplicated. -/
def signedHeaderNames (hs : List (String × String)) : List String :=
  dedupSorted (List.insertionSort strLe (headerNamesLower hs))

/-- The `SignedHeaders` component: the names semicolon-joined. -/
def signedHeadersStr (hs : List (String × String)) : String :=
  joinSep ";" (signedHeaderNames hs)

/-- All (trimmed) values carried for one lower-cased header name, in input
order. -/
def headerValues (hs : List (String × String)) (n : String) : List String :=
  (hs.filter fun p => lowerStr p.1 = n).map fun p => trimStr p.2

/-- Canonical headers block: `name:value\n` per sorted name, duplicate values
comma-joined in original order. -/
def canonicalHeadersStr (hs : List (String × String)) : String :=
  String.join ((signedHeaderNames hs).map fun n =>
    n ++ ":" ++ joinSep "," (headerValues hs n) ++ "\n")

/-- Canonical query string: keys and values percent-encoded, entries sorted by
key then value, joined `k=v` with `&`. -/
def canonicalQueryStr (q : List (String × String)) : String :=
  let enc := q.map fun p => (escapeComponent p.1, escapeComponent p.2)
  let sorted := List.insertionSort
    (fun a b : String × String =>
      (if a.1 = b.1 then strLeB a.2 b.2 else strLeB a.1 b.1) = true) enc
  joinSep "&" (sorted.map fun p => p.1 ++ "=" ++ p.2)

/-- The canonical request: method, canonical URI, canonical query string,
canonical headers block, signed-headers list and payload hash, newline-joined. -/
def canonicalRequest (method : String) (url : HttpURL) (query : List (String × String))
    (hs : List (String × String)) (payload : List Nat) : String :=
  method ++ "\n" ++ escapePath url.path ++ "\n" ++ canonicalQueryStr query ++ "\n" ++
    canonicalHeadersStr hs ++ "\n" ++ signedHeadersStr hs ++ "\n" ++
    hexStr (sha256Bytes payload)

/-- Credential scope: `date/region/service/aws4_request`. -/
def credentialScope (region service : String) (t : Nat) : String :=
  dateStamp t ++ "/" ++ region ++ "/" ++ service ++ "/aws4_request"

/-- The string to sign: algorithm id, timestamp, scope and canonical-request
hash, newline-joined. -/
def stringToSign (region service : String) (t : Nat) (creq : String) : String :=
  "AWS4-HMAC-SHA256\n" ++ isoBasic t ++ "\n" ++ credentialScope region service t ++
    "\n" ++ sha256Hex creq

/-- The four-step HMAC-SHA256 signing-key derivation chain seeded with
`"AWS4" + secretKey` and folded with date, region, service, terminator. -/
def signingKey (secret region service : String) (t : Nat) : List Nat :=
  hmacSha256 (hmacSha256 (hmacSha256 (hmacSha256
    (strBytes ("AWS4" ++ secret)) (strBytes (dateStamp t)))
    (strBytes region)) (strBytes service)) (strBytes "aws4_request")

/-- The headers the signer itself adds: `x-amz-date` always,
`x-amz-security-token` exactly when a session token is configured. -/
def addedHeaders (token : String) (t : Nat) : List (String × String) :=
  ("x-amz-date", isoBasic t) ::
    (if token = "" then [] else [("x-amz-security-token", token)])

/-- The caller's headers after the signer has `Set` its own:
`x-amz-date` always, `x-amz-security-token` when a token is configured. -/
def withSigningHeaders (hs : List (String × String)) (token : String) (t : Nat) :
    List (String × String) :=
  let h1 := setHeader hs "x-amz-date" (isoBasic t)
  if token = "" then h1 else setHeader h1 "x-amz-security-token" token

/-- The headers entering canonicalization: `host` from the URL plus the
request's headers with the signer-added ones `Set`. -/
def signingHeaders (req : Request) (token : String) (t : Nat) : List (String × String) :=
  ("host", req.url.host) :: withSigningHeaders req.headers token t

/-- The hex signature for a request under a signing context. -/
def signatureHex (secret token region service : String) (req : Request) (t : Nat) : String :=
  hexStr (hmacSha256 (signingKey secret region service t)
    (strBytes (stringToSign region service t
      (canonicalRequest req.method req.url req.query (signingHeaders req token t)
        (bodyBytes req.body)))))

/-- The full `Authorization` header value. -/
def authorizationHeader (accessKey secret token region service : String)
    (req : Request) (t : Nat) : String :=
  "AWS4-HMAC-SHA256 Credential=" ++ accessKey ++ "/" ++
    credentialScope region service t ++ ", SignedHeaders=" ++
    signedHeadersStr (signingHeaders req token t) ++ ", Signature=" ++
    signatureHex secret token region service req t

/-- The request as it stands after a successful signing call: the signer's
headers `Set`, everything else untouched. -/
def signedRequest (s : Service) (req : Request) (t : Nat) : Request :=
  { req with headers :=
      (setHeader
        (withSigningHeaders req.headers (s.context.getD initContext).token t)
        "Authorization"
        (authorizationHeader s.accessKey s.accessSecret
          (s.context.getD initContext).token (s.context.getD initContext).region
          (s.context.getD initContext).service req t)) }

/-- `SetSignatureV4` from `src/agcod/agcod.go`: read the body if present
(propagating a read error with the request untouched), then sign. Returns the
request state after the call and the returned error. -/
def SetSignatureV4 (s : Service) (req : Request) (t : Nat) : Request × Option String :=
  match req.body with
  | .failing e => (req, some e)
  | _ => (signedRequest s req t, none)

/-! ## The two known vectors (from `src/agcod/agcod_test.go`) -/

/-- The GET vector's request: `https://subdomain.us-east-1.es.amazonaws.com/log-*/_search`,
no headers preset, no body. -/
def reqGET : Request :=
  { method := "GET",
    url := { host := "subdomain.us-east-1.es.amazonaws.com", path := "/log-*/_search" },
    query := [], headers := [], body := .nil }

/-- The GET vector's service: built exactly as `TestGETSignature` does. -/
def svcSetupGET : Except String Service :=
  (SetRegion (NewService "AKID" "SECRET" "") "us-east-1").bind fun s =>
    (SetService s "es").bind fun s => SetToken s "SESSION"

/-- The POST vector's JSON body. -/
def postBodyJson : String :=
  "\x7b\"creationRequestId\":\"\",\"partnerId\":\"Amazon\",\"value\":\x7b\"currencyCode\":\"USD\",\"amount\":null\x7d\x7d"

/-- The POST vector's request: `https://agcod-v2-fe-gamma.amazon.com/CreateGiftCard`
with `x-amz-target` and `accept` preset and the JSON body. -/
def reqPOST : Request :=
  { method := "POST",
    url := { host := "agcod-v2-fe-gamma.amazon.com", path := "/CreateGiftCard" },
    query := [],
    headers := [("x-amz-target", "com.amazonaws.agcod.AGCODService.CreateGiftCard"),
                ("accept", "application/json")],
    body := .bytes (strBytes postBodyJson) }

/-- The POST vector's service: built exactly as `TestPOSTSignature` does. -/
def svcSetupPOST : Except String Service :=
  (SetRegion (NewService "AKID" "SECRET" "") "us-west-2").bind fun s =>
    (SetService s "AGCODService").bind fun s => SetToken s ""

/-- The error result and `Authorization` header a signing call produces. -/
def signOutcome (s : Service) (req : Request) (t : Nat) : Option String × Option String :=
  let r := SetSignatureV4 s req t
  (r.2, getHeader r.1 "Authorization")

/-- The GET vector's expected `Authorization` value. -/
def expectGET : String :=
  "AWS4-HMAC-SHA256 Credential=AKID/19700101/us-east-1/es/aws4_request, SignedHeaders=host;x-amz-date;x-amz-security-token, Signature=6601e883cc6d23871fd6c2a394c5677ea2b8c82b04a6446786d64cd74f520967"

/-! ## HTTP response handling of the three operations

`CreateGiftCard`, `CancelGiftCard` and `GetAvailableFunds` each read the
response body and then branch on the status code: anything but 200 yields
`(nil, fmt.Errorf("status code: %d, body: %s", ...))` without decoding the
body; 200 decodes the body as the success type. The network transport itself
is outside the embedding; the branching logic is embedded per function. -/

/-- An HTTP response as the three operations see it: status code plus the
fully read body. -/
structure HttpResponse where
  statusCode : Nat
  body : String

/-- Response handling of `CreateGiftCard` (src/agcod/agcod.go lines 122-136):
non-200 statuses become the formatted error, 200 decodes the body. -/
def createGiftCardHandleResponse {α : Type} (decode : String → Except String α)
    (resp : HttpResponse) : Except String α :=
  if resp.statusCode ≠ 200 then
    .error ("status code: " ++ toString resp.statusCode ++ ", body: " ++ resp.body)
  else decode resp.body

/-- Response handling of `CancelGiftCard` (src/agcod/agcod.go lines 164-178). -/
def cancelGiftCardHandleResponse {α : Type} (decode : String → Except String α)
    (resp : HttpResponse) : Except String α :=
  if resp.statusCode ≠ 200 then
    .error ("status code: " ++ toString resp.statusCode ++ ", body: " ++ resp.body)
  else decode resp.body

/-- Response handling of `GetAvailableFunds` (src/agcod/agcod.go lines 202-216). -/
def getAvailableFundsHandleResponse {α : Type} (decode : String → Except String α)
    (resp : HttpResponse) : Except String α :=
  if resp.statusCode ≠ 200 then
    .error ("status code: " ++ toString resp.statusCode ++ ", body: " ++ resp.body)
  else decode resp.body

/-- A lowercase hex character: a decimal digit or `a`-`f`. -/
def isLowerHexChar (c : Char) : Bool :=
  (48 ≤ c.toNat ∧ c.toNat ≤ 57) ∨ (97 ≤ c.toNat ∧ c.toNat ≤ 102)

/-- The POST vector's expected `Authorization` value. -/
def expectPOST : String :=
  "AWS4-HMAC-SHA256 Credential=AKID/20160708/us-west-2/AGCODService/aws4_request, SignedHeaders=accept;host;x-amz-date;x-amz-target, Signature=a47dd06c1bcff61e8c96fee2c87c4230a4dd5f7d4ffb5b958897027a3acae54b"

end Agcod

namespace Agcod

/-! ## Validation of the primitives against standard vectors -/

set_option maxRecDepth 100000 in
/-- FIPS 180-4 test vector: SHA-256 of `"abc"`. -/
theorem sha256Hex_abc_vector : sha256Hex "abc" =
    "ba7816bf8f01cfea414140de5dae2223b00361a396177a9cb410ff61f20015ad" := by decide

set_option maxRecDepth 100000 in
/-- RFC 2202-style test vector for HMAC-SHA256. -/
theorem hmacSha256_fox_vector : hexStr (hmacSha256 (strBytes "key")
    (strBytes "The quick brown fox jumps over the lazy dog")) =
    "f7bc83f430538424b13298e6aa6fb143ef4d59a14946175997479dbc2d1a3cd8" := by decide

/-- The Unix epoch formats as `19700101`. -/
theorem dateStamp_epoch : dateStamp 0 = "19700101" := by decide

/-- Unix 1467963107 formats as `20160708T073147Z`, as the POST test notes. -/
theorem isoBasic_post_time : isoBasic 1467963107 = "20160708T073147Z" := by decide

/-- The GET vector's path escapes `*` to `%2A` and keeps the separators. -/
theorem escapePath_get_path : escapePath "/log-*/_search" = "/log-%2A/_search" := by decide

end Agcod

namespace Agcod

/-! ## Lemmas: the lexicographic header order is total, transitive, antisymmetric -/

theorem listLeB_cons_iff {x y : Nat} {xs ys : List Nat} :
    listLeB (x :: xs) (y :: ys) = true ↔ x < y ∨ (x = y ∧ listLeB xs ys = true) := by
  simp only [listLeB]
  by_cases h1 : x < y
  · simp [h1]
  · by_cases h2 : y < x
    · simp only [if_neg h1, if_pos h2]
      constructor
      · intro h; cases h
      · intro h; omega
    · have hxy : x = y := by omega
      simp [h1, h2, hxy]

theorem listLeB_total (a b : List Nat) : listLeB a b = true ∨ listLeB b a = true := by
  induction a generalizing b with
  | nil => exact Or.inl rfl
  | cons x xs ih =>
    cases b with
    | nil => exact Or.inr rfl
    | cons y ys =>
      rcases Nat.lt_trichotomy x y with h | h | h
      · exact Or.inl (listLeB_cons_iff.mpr (Or.inl h))
      · subst h
        rcases ih ys with hh | hh
        · exact Or.inl (listLeB_cons_iff.mpr (Or.inr ⟨rfl, hh⟩))
        · exact Or.inr (listLeB_cons_iff.mpr (Or.inr ⟨rfl, hh⟩))
      · exact Or.inr (listLeB_cons_iff.mpr (Or.inl h))

theorem listLeB_trans {a b c : List Nat} (h1 : listLeB a b = true) (h2 : listLeB b c = true) :
    listLeB a c = true := by
  induction a generalizing b c with
  | nil => rfl
  | cons x xs ih =>
    cases b with
    | nil => simp [listLeB] at h1
    | cons y ys =>
      cases c with
      | nil => simp [listLeB] at h2
      | cons z zs =>
        rw [listLeB_cons_iff] at h1 h2 ⊢
        rcases h1 with h1 | ⟨rfl, h1⟩
        · rcases h2 with h2 | ⟨rfl, h2⟩
          · exact Or.inl (Nat.lt_trans h1 h2)
          · exact Or.inl h1
        · rcases h2 with h2 | ⟨rfl, h2⟩
          · exact Or.inl h2
          · exact Or.inr ⟨rfl, ih h1 h2⟩

theorem listLeB_antisymm {a b : List Nat} (h1 : listLeB a b = true)
    (h2 : listLeB b a = true) : a = b := by
  induction a generalizing b with
  | nil =>
    cases b with
    | nil => rfl
    | cons y ys => simp [listLeB] at h2
  | cons x xs ih =>
    cases b with
    | nil => simp [listLeB] at h1
    | cons y ys =>
      rw [listLeB_cons_iff] at h1 h2
      rcases h1 with h1 | ⟨rfl, h1⟩
      · rcases h2 with h2 | ⟨h2, _⟩
        · exact absurd h2 (Nat.lt_asymm h1)
        · exact absurd h2.symm (Nat.ne_of_lt h1)
      · rcases h2 with h2 | ⟨_, h2⟩
        · exact absurd h2 (Nat.lt_irrefl x)
        · rw [ih h1 h2]

theorem charToNat_inj {a b : Char} (h : a.toNat = b.toNat) : a = b := by
  cases a; cases b
  simp only [Char.toNat] at h
  congr 1
  exact UInt32.ext h

theorem strBytes_inj {a b : String} (h : strBytes a = strBytes b) : a = b := by
  have hdata : a.data = b.data :=
    List.map_injective_iff.mpr (fun _ _ hc => charToNat_inj hc) h
  cases a; cases b
  exact congrArg String.mk hdata

instance : IsTotal String strLe := ⟨fun a b => listLeB_total (strBytes a) (strBytes b)⟩

instance : IsTrans String strLe := ⟨fun _ _ _ h1 h2 => listLeB_trans h1 h2⟩

instance : IsAntisymm String strLe := ⟨fun _ _ h1 h2 => strBytes_inj (listLeB_antisymm h1 h2)⟩

/-! ## Lemmas: signed-header names are a sorted, lower-cased selection -/

theorem signedHeaderNames_eq_of_perm {hs1 hs2 : List (String × String)}
    (h : List.Perm (headerNamesLower hs1) (headerNamesLower hs2)) :
    signedHeaderNames hs1 = signedHeaderNames hs2 := by
  unfold signedHeaderNames dedupSorted
  congr 1
  exact List.eq_of_perm_of_sorted
    ((List.perm_insertionSort _ _).trans (h.trans (List.perm_insertionSort _ _).symm))
    (List.sorted_insertionSort _ _) (List.sorted_insertionSort _ _)

theorem signedHeaderNames_sorted (hs : List (String × String)) :
    List.Sorted strLe (signedHeaderNames hs) := by
  unfold signedHeaderNames dedupSorted
  exact (List.sorted_insertionSort strLe _).sublist (List.destutter_sublist _ _)

theorem signedHeaderNames_subset (hs : List (String × String)) :
    ∀ n ∈ signedHeaderNames hs, n ∈ headerNamesLower hs := by
  intro n hn
  simp only [signedHeaderNames, dedupSorted] at hn
  exact (List.perm_insertionSort strLe _).subset ((List.destutter_sublist _ _).subset hn)

end Agcod

namespace Agcod

/-! ## Lemmas: header lookup against `setHeader` -/

theorem findHeader_cons {p : String × String} {rest : List (String × String)} {name : String} :
    findHeader (p :: rest) name =
      if lowerStr p.1 = lowerStr name then some p.2 else findHeader rest name := by
  by_cases h : lowerStr p.1 = lowerStr name <;> simp [findHeader, List.find?, h]

theorem findHeader_eq_none {hs : List (String × String)} {name : String}
    (h : ∀ p ∈ hs, lowerStr p.1 ≠ lowerStr name) : findHeader hs name = none := by
  induction hs with
  | nil => rfl
  | cons p rest ih =>
    rw [findHeader_cons, if_neg (h p (List.mem_cons_self p rest))]
    exact ih fun q hq => h q (List.mem_cons_of_mem _ hq)

theorem findHeader_append {hs1 hs2 : List (String × String)} {name : String}
    (h : findHeader hs1 name = none) :
    findHeader (hs1 ++ hs2) name = findHeader hs2 name := by
  induction hs1 with
  | nil => rfl
  | cons p rest ih =>
    rw [findHeader_cons] at h
    rw [List.cons_append, findHeader_cons]
    by_cases hp : lowerStr p.1 = lowerStr name
    · rw [if_pos hp] at h; cases h
    · rw [if_neg hp] at h
      rw [if_neg hp]
      exact ih h

theorem mem_filter_ne {hs : List (String × String)} {n : String} :
    ∀ p ∈ hs.filter (fun p => decide (lowerStr p.1 ≠ lowerStr n)), lowerStr p.1 ≠ lowerStr n := by
  intro p hp
  simpa using List.of_mem_filter hp

theorem findHeader_setHeader_self {hs : List (String × String)} {n v name : String}
    (hm : lowerStr n = lowerStr name) : findHeader (setHeader hs n v) name = some v := by
  unfold setHeader
  have hclean : ∀ p ∈ hs.filter (fun p => decide (lowerStr p.1 ≠ lowerStr n)),
      lowerStr p.1 ≠ lowerStr name := fun p hp => hm ▸ mem_filter_ne p hp
  rw [findHeader_append (findHeader_eq_none hclean), findHeader_cons, if_pos hm]

theorem findHeader_setHeader_ne {hs : List (String × String)} {n v name : String}
    (hne : lowerStr n ≠ lowerStr name) :
    findHeader (setHeader hs n v) name = findHeader hs name := by
  unfold setHeader
  induction hs with
  | nil => simp [findHeader, List.find?, hne]
  | cons p rest ih =>
    by_cases hq : lowerStr p.1 = lowerStr n
    · have hp : lowerStr p.1 ≠ lowerStr name := by rw [hq]; exact hne
      rw [List.filter_cons_of_neg (by simpa using hq), ih, findHeader_cons, if_neg hp]
    · rw [List.filter_cons_of_pos (by simpa using hq), List.cons_append,
        findHeader_cons, findHeader_cons]
      by_cases hp : lowerStr p.1 = lowerStr name
      · rw [if_pos hp, if_pos hp]
      · rw [if_neg hp, if_neg hp, ih]

theorem setHeader_of_clean {hs : List (String × String)} {n v : String}
    (h : ∀ p ∈ hs, lowerStr p.1 ≠ lowerStr n) : setHeader hs n v = hs ++ [(n, v)] := by
  unfold setHeader
  congr 1
  exact List.filter_eq_self.mpr fun p hp => by simpa using h p hp

theorem withSigningHeaders_of_clean {hs : List (String × String)} {token : String} {t : Nat}
    (hd : ∀ p ∈ hs, lowerStr p.1 ≠ "x-amz-date")
    (htk : ∀ p ∈ hs, lowerStr p.1 ≠ "x-amz-security-token") :
    withSigningHeaders hs token t = hs ++ addedHeaders token t := by
  have hld : lowerStr "x-amz-date" = "x-amz-date" := by decide
  have hltk : lowerStr "x-amz-security-token" = "x-amz-security-token" := by decide
  have h1 : setHeader hs "x-amz-date" (isoBasic t) = hs ++ [("x-amz-date", isoBasic t)] :=
    setHeader_of_clean fun p hp => by rw [hld]; exact hd p hp
  have h2 : setHeader (hs ++ [("x-amz-date", isoBasic t)]) "x-amz-security-token" token =
      (hs ++ [("x-amz-date", isoBasic t)]) ++ [("x-amz-security-token", token)] := by
    refine setHeader_of_clean fun p hp => ?_
    rw [hltk]
    rcases List.mem_append.mp hp with hp | hp
    · exact htk p hp
    · rcases List.mem_singleton.mp hp with rfl
      show lowerStr "x-amz-date" ≠ "x-amz-security-token"
      decide
  simp only [withSigningHeaders, addedHeaders]
  by_cases h : token = ""
  · rw [if_pos h, if_pos h, h1]
  · rw [if_neg h, if_neg h, h1, h2, List.append_assoc]
    rfl

/-- The structure of a successful signing call: the request with the signer's
headers `Set`, and no error. -/
theorem setSignature_ok {s : Service} {req : Request} {t : Nat}
    (hb : ∀ e, req.body ≠ Body.failing e) :
    SetSignatureV4 s req t = (signedRequest s req t, none) := by
  obtain ⟨m, url, q, hs, b⟩ := req
  cases b with
  | failing e => exact absurd rfl (hb e)
  | nil => rfl
  | bytes bs => rfl

/-! ## Lemmas: the signature is 64 lowercase hex characters -/

theorem beBytes_length (n x : Nat) : (beBytes n x).length = n := by
  induction n generalizing x with
  | zero => rfl
  | succ m ih => simp [beBytes, ih]

theorem sha256Compress_length (hs : List Nat) (block : List Nat) :
    (sha256Compress hs block).length = 8 := rfl

theorem foldlCompress_length (blocks : List (List Nat)) (hs : List Nat) (h : hs.length = 8) :
    (blocks.foldl sha256Compress hs).length = 8 := by
  induction blocks generalizing hs with
  | nil => simpa using h
  | cons b rest ih => exact ih _ (sha256Compress_length _ _)

theorem foldrBE_length (l : List Nat) :
    (l.foldr (fun w acc => beBytes 4 w ++ acc) []).length = 4 * l.length := by
  induction l with
  | nil => rfl
  | cons w rest ih =>
    simp only [List.foldr, List.length_append, List.length_cons, beBytes_length, ih]
    omega

theorem sha256Bytes_length (m : List Nat) : (sha256Bytes m).length = 32 := by
  unfold sha256Bytes
  rw [foldrBE_length, foldlCompress_length _ sha256Init rfl]

theorem hmacSha256_length (k m : List Nat) : (hmacSha256 k m).length = 32 := by
  unfold hmacSha256
  exact sha256Bytes_length _

theorem beBytes_lt {n x : Nat} : ∀ b ∈ beBytes n x, b < 256 := by
  induction n generalizing x with
  | zero => intro b hb; simp [beBytes] at hb
  | succ m ih =>
    intro b hb
    simp only [beBytes, List.mem_append, List.mem_singleton] at hb
    rcases hb with hb | rfl
    · exact ih _ hb
    · exact Nat.lt_succ_of_le Nat.and_le_right

theorem foldrBE_lt (l : List Nat) :
    ∀ b ∈ l.foldr (fun w acc => beBytes 4 w ++ acc) [], b < 256 := by
  induction l with
  | nil => intro b hb; simp at hb
  | cons w rest ih =>
    intro b hb
    simp only [List.foldr, List.mem_append] at hb
    rcases hb with hb | hb
    · exact beBytes_lt _ hb
    · exact ih _ hb

theorem sha256Bytes_lt {m : List Nat} : ∀ b ∈ sha256Bytes m, b < 256 := by
  intro b hb
  unfold sha256Bytes at hb
  exact foldrBE_lt _ _ hb

theorem hmacSha256_lt {k m : List Nat} : ∀ b ∈ hmacSha256 k m, b < 256 := by
  intro b hb
  unfold hmacSha256 at hb
  exact sha256Bytes_lt _ hb

theorem hexDigit_lhc : ∀ n, n < 16 → isLowerHexChar (hexDigit n) = true := by decide

theorem hexChars_cons (b : Nat) (rest : List Nat) :
    hexChars (b :: rest) = hexByte b ++ hexChars rest := rfl

theorem hexChars_length (bs : List Nat) : (hexChars bs).length = 2 * bs.length := by
  induction bs with
  | nil => rfl
  | cons b rest ih =>
    have hhb : (hexByte b).length = 2 := rfl
    rw [hexChars_cons, List.length_append, ih, List.length_cons, hhb]
    omega

theorem hexStr_length (bs : List Nat) : (hexStr bs).length = 2 * bs.length :=
  hexChars_length bs

theorem hexChars_lhc {bs : List Nat} :
    (∀ b ∈ bs, b < 256) → ∀ c ∈ hexChars bs, isLowerHexChar c = true := by
  induction bs with
  | nil => intro _ c hc; simp [hexChars] at hc
  | cons b rest ih =>
    intro h c hc
    rw [hexChars_cons] at hc
    have hb : b < 256 := h b (List.mem_cons_self b rest)
    simp only [hexByte, List.cons_append, List.nil_append, List.mem_cons] at hc
    rcases hc with rfl | rfl | hc
    · have hdiv : b / 16 < 16 := by omega
      exact hexDigit_lhc (b / 16) hdiv
    · have hmod : b % 16 < 16 := Nat.mod_lt b (by omega)
      exact hexDigit_lhc (b % 16) hmod
    · exact ih (fun x hx => h x (List.mem_cons_of_mem _ hx)) c hc

set_option maxHeartbeats 1000000 in
theorem signatureHex_length (secret token region service : String) (req : Request) (t : Nat) :
    (signatureHex secret token region service req t).length = 64 := by
  simp only [signatureHex]
  rw [hexStr_length, hmacSha256_length]

theorem hexStr_toList_lhc {bs : List Nat} (h : ∀ b ∈ bs, b < 256) :
    ∀ c ∈ (hexStr bs).toList, isLowerHexChar c = true :=
  fun c hc => hexChars_lhc h c hc

theorem signatureHex_lhc (secret token region service : String) (req : Request) (t : Nat) :
    ∀ c ∈ (signatureHex secret token region service req t).toList,
      isLowerHexChar c = true := by
  intro c hc
  simp only [signatureHex] at hc
  exact hexStr_toList_lhc (fun b hb => hmacSha256_lt b hb) c hc

end Agcod

namespace Agcod

/-! ## Lemmas: lower-cased header names under the signer's `Set` operations -/

theorem headerNamesLower_filter (hs : List (String × String)) (n : String) :
    headerNamesLower (hs.filter fun p => decide (lowerStr p.1 ≠ lowerStr n)) =
      (headerNamesLower hs).filter fun m => decide (m ≠ lowerStr n) := by
  unfold headerNamesLower
  induction hs with
  | nil => rfl
  | cons p rest ih =>
    simp only [List.filter_cons, List.map_cons, decide_not] at ih ⊢
    by_cases hq : lowerStr p.1 = lowerStr n <;> simp [hq, ih]

theorem headerNamesLower_setHeader (hs : List (String × String)) (n v : String) :
    headerNamesLower (setHeader hs n v) =
      (headerNamesLower hs).filter (fun m => decide (m ≠ lowerStr n)) ++ [lowerStr n] := by
  have happ :
      headerNamesLower
          ((hs.filter fun p => decide (lowerStr p.1 ≠ lowerStr n)) ++ [(n, v)]) =
        headerNamesLower (hs.filter fun p => decide (lowerStr p.1 ≠ lowerStr n)) ++
          [lowerStr n] := by
    simp [headerNamesLower, List.map_append]
  unfold setHeader
  rw [happ, headerNamesLower_filter]

theorem headerNamesLower_withSigningHeaders_perm {hs1 hs2 : List (String × String)}
    (token : String) (t : Nat)
    (h : List.Perm (headerNamesLower hs1) (headerNamesLower hs2)) :
    List.Perm (headerNamesLower (withSigningHeaders hs1 token t))
      (headerNamesLower (withSigningHeaders hs2 token t)) := by
  unfold withSigningHeaders
  by_cases htok : token = ""
  · simp only [if_pos htok]
    rw [headerNamesLower_setHeader, headerNamesLower_setHeader]
    exact (h.filter _).append_right _
  · simp only [if_neg htok]
    rw [headerNamesLower_setHeader, headerNamesLower_setHeader,
      headerNamesLower_setHeader, headerNamesLower_setHeader]
    exact (((h.filter _).append_right _).filter _).append_right _

theorem headerNamesLower_signingHeaders_perm {req1 req2 : Request} (token : String) (t : Nat)
    (h : List.Perm (headerNamesLower req1.headers) (headerNamesLower req2.headers)) :
    List.Perm (headerNamesLower (signingHeaders req1 token t))
      (headerNamesLower (signingHeaders req2 token t)) :=
  List.Perm.cons _ (headerNamesLower_withSigningHeaders_perm token t h)

end Agcod

namespace Agcod

/-! ## Helper facts about lookups in a signed request -/

theorem getHeader_signedRequest_auth (s : Service) (req : Request) (t : Nat) :
    getHeader (signedRequest s req t) "Authorization" =
      some (authorizationHeader s.accessKey s.accessSecret (s.context.getD initContext).token
        (s.context.getD initContext).region (s.context.getD initContext).service req t) :=
  findHeader_setHeader_self rfl

theorem getHeader_signedRequest_ne (s : Service) (req : Request) (t : Nat) (name : String)
    (hne : lowerStr "Authorization" ≠ lowerStr name) :
    getHeader (signedRequest s req t) name =
      findHeader (withSigningHeaders req.headers (s.context.getD initContext).token t) name :=
  findHeader_setHeader_ne hne

theorem findHeader_withSigningHeaders_date (hs : List (String × String)) (token : String)
    (t : Nat) : findHeader (withSigningHeaders hs token t) "x-amz-date" = some (isoBasic t) := by
  unfold withSigningHeaders
  by_cases htok : token = ""
  · rw [if_pos htok]
    exact findHeader_setHeader_self rfl
  · rw [if_neg htok, findHeader_setHeader_ne (by decide)]
    exact findHeader_setHeader_self rfl

theorem findHeader_withSigningHeaders_token_none (hs : List (String × String)) (t : Nat)
    (hclean : ∀ p ∈ hs, lowerStr p.1 ≠ "x-amz-security-token") :
    findHeader (withSigningHeaders hs "" t) "x-amz-security-token" = none := by
  have hlow : lowerStr "x-amz-security-token" = "x-amz-security-token" := by decide
  unfold withSigningHeaders
  rw [if_pos rfl, findHeader_setHeader_ne (by decide)]
  refine findHeader_eq_none fun p hp => ?_
  rw [hlow]
  exact hclean p hp

theorem findHeader_withSigningHeaders_token_some (hs : List (String × String)) (token : String)
    (t : Nat) (h : token ≠ "") :
    findHeader (withSigningHeaders hs token t) "x-amz-security-token" = some token := by
  unfold withSigningHeaders
  rw [if_neg h]
  exact findHeader_setHeader_self rfl

end Agcod

namespace Agcod

/-! ## The claims -/

set_option maxRecDepth 1000000 in
/-- C1: On the two fixed known vectors from the test suite — the GET to
`https://subdomain.us-east-1.es.amazonaws.com/log-*/_search` (AKID/SECRET/SESSION,
us-east-1, es, Unix 0) and the POST to
`https://agcod-v2-fe-gamma.amazon.com/CreateGiftCard` (AKID/SECRET, no token,
us-west-2, AGCODService, Unix 1467963107) — `SetSignatureV4` succeeds and sets
the `Authorization` header to exactly the literal values the spec gives,
with signatures `6601e8...0967` and `a47dd0...e54b` respectively. -/
theorem setSignatureV4_known_vectors :
    svcSetupGET.toOption.map (fun s => signOutcome s reqGET 0) =
      some (none, some expectGET) ∧
    svcSetupPOST.toOption.map (fun s => signOutcome s reqPOST 1467963107) =
      some (none, some expectPOST) := by
  exact ⟨by decide, by decide⟩

/-- C2: Signing is deterministic — identically-built services, requests and
timestamps produce identical results, in particular byte-identical
`Authorization` header values; the output is a function of nothing but these
inputs. -/
theorem setSignatureV4_deterministic (s1 s2 : Service) (r1 r2 : Request) (t1 t2 : Nat)
    (hs : s1 = s2) (hr : r1 = r2) (ht : t1 = t2) :
    SetSignatureV4 s1 r1 t1 = SetSignatureV4 s2 r2 t2 ∧
    getHeader (SetSignatureV4 s1 r1 t1).1 "Authorization" =
      getHeader (SetSignatureV4 s2 r2 t2).1 "Authorization" := by
  subst hs; subst hr; subst ht
  exact ⟨rfl, rfl⟩

/-- C2 witness: determinism at the concrete GET vector. -/
theorem setSignatureV4_deterministic_witness :
    SetSignatureV4 (NewService "AKID" "SECRET" "") reqGET 0 =
      SetSignatureV4 (NewService "AKID" "SECRET" "") reqGET 0 ∧
    getHeader (SetSignatureV4 (NewService "AKID" "SECRET" "") reqGET 0).1 "Authorization" =
      getHeader (SetSignatureV4 (NewService "AKID" "SECRET" "") reqGET 0).1 "Authorization" :=
  setSignatureV4_deterministic _ _ _ _ _ _ rfl rfl rfl

/-- C3: For a request with a (readable) body and no signer-managed headers
preset, a successful `SetSignatureV4` only adds headers — `x-amz-date`,
`x-amz-security-token` when a token is set, and `Authorization` — while
method, URL, query and in particular the body bytes for the subsequent
transmission are unchanged. -/
theorem setSignatureV4_frame (s : Service) (req : Request) (t : Nat) (bs : List Nat)
    (hb : req.body = Body.bytes bs)
    (hclean : ∀ p ∈ req.headers, lowerStr p.1 ≠ "x-amz-date" ∧
      lowerStr p.1 ≠ "x-amz-security-token" ∧ lowerStr p.1 ≠ "authorization") :
    (SetSignatureV4 s req t).2 = none ∧
    (SetSignatureV4 s req t).1.method = req.method ∧
    (SetSignatureV4 s req t).1.url = req.url ∧
    (SetSignatureV4 s req t).1.query = req.query ∧
    (SetSignatureV4 s req t).1.body = req.body ∧
    (SetSignatureV4 s req t).1.headers =
      req.headers ++ addedHeaders (s.context.getD initContext).token t ++
        [("Authorization",
          authorizationHeader s.accessKey s.accessSecret (s.context.getD initContext).token
            (s.context.getD initContext).region (s.context.getD initContext).service req t)] := by
  have hb' : ∀ e, req.body ≠ Body.failing e := fun e he => by rw [hb] at he; cases he
  rw [setSignature_ok hb']
  refine ⟨rfl, rfl, rfl, rfl, rfl, ?_⟩
  have hlauth : lowerStr "Authorization" = "authorization" := by decide
  have hadd : ∀ p ∈ addedHeaders (s.context.getD initContext).token t,
      lowerStr p.1 ≠ lowerStr "Authorization" := by
    intro p hp
    unfold addedHeaders at hp
    rcases List.mem_cons.mp hp with rfl | hp
    · show lowerStr "x-amz-date" ≠ lowerStr "Authorization"
      decide
    · by_cases htk : (s.context.getD initContext).token = ""
      · rw [if_pos htk] at hp
        simp at hp
      · rw [if_neg htk] at hp
        rcases List.mem_singleton.mp hp with rfl
        show lowerStr "x-amz-security-token" ≠ lowerStr "Authorization"
        decide
  show setHeader (withSigningHeaders req.headers (s.context.getD initContext).token t)
      "Authorization"
      (authorizationHeader s.accessKey s.accessSecret (s.context.getD initContext).token
        (s.context.getD initContext).region (s.context.getD initContext).service req t) = _
  rw [withSigningHeaders_of_clean (fun p hp => (hclean p hp).1) (fun p hp => (hclean p hp).2.1),
    setHeader_of_clean]
  intro p hp
  rcases List.mem_append.mp hp with hp | hp
  · rw [hlauth]
    exact (hclean p hp).2.2
  · exact hadd p hp

/-- C3 witness: the frame property at the concrete POST vector. -/
theorem setSignatureV4_frame_witness :
    (SetSignatureV4 (NewService "AKID" "SECRET" "") reqPOST 0).2 = none ∧
    (SetSignatureV4 (NewService "AKID" "SECRET" "") reqPOST 0).1.method = reqPOST.method ∧
    (SetSignatureV4 (NewService "AKID" "SECRET" "") reqPOST 0).1.url = reqPOST.url ∧
    (SetSignatureV4 (NewService "AKID" "SECRET" "") reqPOST 0).1.query = reqPOST.query ∧
    (SetSignatureV4 (NewService "AKID" "SECRET" "") reqPOST 0).1.body = reqPOST.body ∧
    (SetSignatureV4 (NewService "AKID" "SECRET" "") reqPOST 0).1.headers =
      reqPOST.headers ++
        addedHeaders ((NewService "AKID" "SECRET" "").context.getD initContext).token 0 ++
        [("Authorization",
          authorizationHeader (NewService "AKID" "SECRET" "").accessKey
            (NewService "AKID" "SECRET" "").accessSecret
            ((NewService "AKID" "SECRET" "").context.getD initContext).token
            ((NewService "AKID" "SECRET" "").context.getD initContext).region
            ((NewService "AKID" "SECRET" "").context.getD initContext).service reqPOST 0)] :=
  setSignatureV4_frame _ reqPOST 0 _ rfl (by decide)

/-- C4: If the body read fails with an error, `SetSignatureV4` returns exactly
that error and the request is left unmodified — no `Authorization` or other
header is attached. -/
theorem setSignatureV4_body_read_error (s : Service) (req : Request) (t : Nat) (e : String)
    (hb : req.body = Body.failing e) : SetSignatureV4 s req t = (req, some e) := by
  obtain ⟨m, url, q, hs, b⟩ := req
  subst hb
  rfl

/-- C4 witness: the error path at a concrete failing request. -/
theorem setSignatureV4_body_read_error_witness :
    SetSignatureV4 (NewService "AKID" "SECRET" "")
        { method := "POST", url := { host := "h", path := "/p" }, query := [],
          headers := [], body := Body.failing "read failed" } 0 =
      ({ method := "POST", url := { host := "h", path := "/p" }, query := [],
          headers := [], body := Body.failing "read failed" }, some "read failed") :=
  setSignatureV4_body_read_error _ _ _ _ rfl

/-- C5: The `Signature` field of the produced `Authorization` header equals
hex(HMAC-SHA256(kSigning, stringToSign)), with kSigning the four-step
HMAC-SHA256 chain seeded with `"AWS4" + secretKey` folded with date, region,
service and `"aws4_request"`, and stringToSign the algorithm line, ISO 8601
basic timestamp, credential scope and hex SHA-256 of the canonical request,
newline-joined. -/
theorem authorization_signature_hmac_chain (s : Service) (req : Request) (t : Nat)
    (hb : ∀ e, req.body ≠ Body.failing e) :
    getHeader (SetSignatureV4 s req t).1 "Authorization" =
      some (authorizationHeader s.accessKey s.accessSecret (s.context.getD initContext).token
        (s.context.getD initContext).region (s.context.getD initContext).service req t) ∧
    (∀ secret token region service : String, ∀ (r : Request) (ts : Nat),
      signatureHex secret token region service r ts =
        hexStr (hmacSha256
          (hmacSha256 (hmacSha256 (hmacSha256 (hmacSha256
            (strBytes ("AWS4" ++ secret)) (strBytes (dateStamp ts)))
            (strBytes region)) (strBytes service)) (strBytes "aws4_request"))
          (strBytes ("AWS4-HMAC-SHA256\n" ++ isoBasic ts ++ "\n" ++
            (dateStamp ts ++ "/" ++ region ++ "/" ++ service ++ "/aws4_request") ++ "\n" ++
            sha256Hex (canonicalRequest r.method r.url r.query
              (signingHeaders r token ts) (bodyBytes r.body)))))) ∧
    authorizationHeader s.accessKey s.accessSecret (s.context.getD initContext).token
        (s.context.getD initContext).region (s.context.getD initContext).service req t =
      "AWS4-HMAC-SHA256 Credential=" ++ s.accessKey ++ "/" ++
        credentialScope (s.context.getD initContext).region
          (s.context.getD initContext).service t ++
        ", SignedHeaders=" ++
        signedHeadersStr (signingHeaders req (s.context.getD initContext).token t) ++
        ", Signature=" ++
        signatureHex s.accessSecret (s.context.getD initContext).token
          (s.context.getD initContext).region (s.context.getD initContext).service req t := by
  refine ⟨?_, fun secret token region service r ts => rfl, rfl⟩
  rw [setSignature_ok hb]
  exact getHeader_signedRequest_auth s req t

end Agcod

namespace Agcod

/-- C5 witness: the Authorization header of the signed GET vector equals the
assembled header value. -/
theorem authorization_signature_hmac_chain_witness :
    getHeader (SetSignatureV4 (NewService "AKID" "SECRET" "") reqGET 0).1 "Authorization" =
      some (authorizationHeader (NewService "AKID" "SECRET" "").accessKey
        (NewService "AKID" "SECRET" "").accessSecret
        ((NewService "AKID" "SECRET" "").context.getD initContext).token
        ((NewService "AKID" "SECRET" "").context.getD initContext).region
        ((NewService "AKID" "SECRET" "").context.getD initContext).service reqGET 0) :=
  (authorization_signature_hmac_chain (NewService "AKID" "SECRET" "") reqGET 0
    (fun _ h => Body.noConfusion h)).1

/-- C6: The `SignedHeaders` list is invariant under permutation and re-casing
of the request's headers, and is always the lower-cased header names sorted
lexicographically (and semicolon-joined by `signedHeadersStr`). -/
theorem signedHeaders_sorted_invariant (req1 req2 : Request) (token : String) (t : Nat)
    (hperm : List.Perm (headerNamesLower req1.headers) (headerNamesLower req2.headers)) :
    signedHeadersStr (signingHeaders req1 token t) =
      signedHeadersStr (signingHeaders req2 token t) ∧
    List.Sorted strLe (signedHeaderNames (signingHeaders req1 token t)) ∧
    ∀ n ∈ signedHeaderNames (signingHeaders req1 token t),
      n ∈ headerNamesLower (signingHeaders req1 token t) := by
  refine ⟨?_, signedHeaderNames_sorted _, signedHeaderNames_subset _⟩
  unfold signedHeadersStr
  rw [signedHeaderNames_eq_of_perm (headerNamesLower_signingHeaders_perm token t hperm)]

/-- C6 witness: re-ordering and re-casing two concrete headers leaves the
`SignedHeaders` component unchanged. -/
theorem signedHeaders_sorted_invariant_witness :
    signedHeadersStr (signingHeaders
        { method := "POST", url := { host := "h", path := "/" }, query := [],
          headers := [("X-Amz-Target", "a"), ("Accept", "b")], body := Body.nil } "" 0) =
      signedHeadersStr (signingHeaders
        { method := "POST", url := { host := "h", path := "/" }, query := [],
          headers := [("accept", "c"), ("x-amz-TARGET", "d")], body := Body.nil } "" 0) :=
  (signedHeaders_sorted_invariant _ _ "" 0 (by decide)).1

/-- C7: A body-less request's payload hash is the well-known SHA-256 of the
empty string, and signing with no body is identical — same canonical request,
same headers, same error outcome — to signing with a zero-length body. -/
theorem empty_body_payload_hash :
    hexStr (sha256Bytes (bodyBytes Body.nil)) =
      "e3b0c44298fc1c149afbf4c8996fb92427ae41e4649b934ca495991b7852b855" ∧
    (∀ (m : String) (url : HttpURL) (q hs : List (String × String)),
      canonicalRequest m url q hs (bodyBytes Body.nil) =
        canonicalRequest m url q hs (bodyBytes (Body.bytes []))) ∧
    (∀ (s : Service) (m : String) (url : HttpURL) (q hs : List (String × String)) (t : Nat),
      (SetSignatureV4 s ⟨m, url, q, hs, Body.nil⟩ t).1.headers =
        (SetSignatureV4 s ⟨m, url, q, hs, Body.bytes []⟩ t).1.headers ∧
      (SetSignatureV4 s ⟨m, url, q, hs, Body.nil⟩ t).2 =
        (SetSignatureV4 s ⟨m, url, q, hs, Body.bytes []⟩ t).2) :=
  ⟨by decide, fun m url q hs => rfl, fun s m url q hs t => ⟨rfl, rfl⟩⟩

/-- C8: The wire contract of a successful signing call: no error; the
`Authorization` header has the exact
`AWS4-HMAC-SHA256 Credential=<key>/<date>/<region>/<service>/aws4_request,
SignedHeaders=<...>, Signature=<sig>` shape with `<sig>` exactly 64 lowercase
hex characters; `x-amz-date` carries the `YYYYMMDDTHHMMSSZ` timestamp; and
`x-amz-security-token` is present exactly when a session token is configured. -/
theorem setSignatureV4_wire_contract (s : Service) (req : Request) (t : Nat)
    (hb : ∀ e, req.body ≠ Body.failing e)
    (htok : (s.context.getD initContext).token = "" →
      ∀ p ∈ req.headers, lowerStr p.1 ≠ "x-amz-security-token") :
    (SetSignatureV4 s req t).2 = none ∧
    getHeader (SetSignatureV4 s req t).1 "Authorization" =
      some ("AWS4-HMAC-SHA256 Credential=" ++ s.accessKey ++ "/" ++
        (dateStamp t ++ "/" ++ (s.context.getD initContext).region ++ "/" ++
          (s.context.getD initContext).service ++ "/aws4_request") ++
        ", SignedHeaders=" ++
        signedHeadersStr (signingHeaders req (s.context.getD initContext).token t) ++
        ", Signature=" ++
        signatureHex s.accessSecret (s.context.getD initContext).token
          (s.context.getD initContext).region (s.context.getD initContext).service req t) ∧
    (signatureHex s.accessSecret (s.context.getD initContext).token
      (s.context.getD initContext).region (s.context.getD initContext).service req t).length
        = 64 ∧
    (∀ ch ∈ (signatureHex s.accessSecret (s.context.getD initContext).token
        (s.context.getD initContext).region (s.context.getD initContext).service req t).toList,
      isLowerHexChar ch = true) ∧
    getHeader (SetSignatureV4 s req t).1 "x-amz-date" = some (isoBasic t) ∧
    getHeader (SetSignatureV4 s req t).1 "x-amz-security-token" =
      (if (s.context.getD initContext).token = "" then none
       else some (s.context.getD initContext).token) := by
  rw [setSignature_ok hb]
  refine ⟨rfl, ?_, signatureHex_length _ _ _ _ _ _, signatureHex_lhc _ _ _ _ _ _, ?_, ?_⟩
  · exact getHeader_signedRequest_auth s req t
  · rw [getHeader_signedRequest_ne s req t _ (by decide)]
    exact findHeader_withSigningHeaders_date _ _ _
  · rw [getHeader_signedRequest_ne s req t _ (by decide)]
    by_cases hc : (s.context.getD initContext).token = ""
    · rw [if_pos hc]
      have := findHeader_withSigningHeaders_token_none req.headers t (htok hc)
      rw [← hc] at this
      exact this
    · rw [if_neg hc]
      exact findHeader_withSigningHeaders_token_some _ _ _ hc

/-- C8 witness: the `x-amz-date` header of the signed POST vector carries the
formatted timestamp. -/
theorem setSignatureV4_wire_contract_witness :
    getHeader (SetSignatureV4 (NewService "AKID" "SECRET" "") reqPOST 0).1 "x-amz-date" =
      some (isoBasic 0) :=
  (setSignatureV4_wire_contract (NewService "AKID" "SECRET" "") reqPOST 0
    (fun _ h => Body.noConfusion h) (fun _ => by decide)).2.2.2.2.1

/-- C9: Every service built by `NewService` carries a non-nil context, so the
four setters never hit the `invalid context` panic: each returns a service,
again with a non-nil context. -/
theorem newService_setters_no_panic :
    ∀ key secret baseURL : String,
      (NewService key secret baseURL).context.isSome = true ∧
      ∀ s : Service, s.context.isSome = true →
        ∀ v : String,
          (∃ s', SetRegion s v = Except.ok s' ∧ s'.context.isSome = true) ∧
          (∃ s', SetToken s v = Except.ok s' ∧ s'.context.isSome = true) ∧
          (∃ s', SetService s v = Except.ok s' ∧ s'.context.isSome = true) ∧
          (∃ s', SetPartnerID s v = Except.ok s' ∧ s'.context.isSome = true) := by
  intro key secret baseURL
  refine ⟨rfl, fun s hs v => ?_⟩
  rcases hctx : s.context with _ | c
  · rw [hctx] at hs
    cases hs
  · exact ⟨⟨{ s with context := some { c with region := v } },
        by simp [SetRegion, checkContext, hctx, Except.map], rfl⟩,
      ⟨{ s with context := some { c with token := v } },
        by simp [SetToken, checkContext, hctx, Except.map], rfl⟩,
      ⟨{ s with context := some { c with service := v } },
        by simp [SetService, checkContext, hctx, Except.map], rfl⟩,
      ⟨{ s with context := some { c with partnerID := v } },
        by simp [SetPartnerID, checkContext, hctx, Except.map], rfl⟩⟩

/-- C9 witness: the constructor and a setter at concrete strings. -/
theorem newService_setters_no_panic_witness :
    (NewService "k" "sec" "u").context.isSome = true ∧
    (∃ s', SetRegion (NewService "k" "sec" "u") "ap-northeast-1" = Except.ok s' ∧
      s'.context.isSome = true) := by
  have h := newService_setters_no_panic "k" "sec" "u"
  exact ⟨h.1, (h.2 (NewService "k" "sec" "u") rfl "ap-northeast-1").1⟩

/-- C10: Whenever the HTTP status is not 200, each of `CreateGiftCard`,
`CancelGiftCard` and `GetAvailableFunds` yields no response and the error
`status code: <code>, body: <raw body>`, independent of (and without invoking
the result of) the success decoder. -/
theorem non200_status_error :
    ∀ (code : Nat) (body : String), code ≠ 200 →
      ∀ (α β γ : Type) (d1 : String → Except String α) (d2 : String → Except String β)
        (d3 : String → Except String γ),
        createGiftCardHandleResponse d1 ⟨code, body⟩ =
          Except.error ("status code: " ++ toString code ++ ", body: " ++ body) ∧
        cancelGiftCardHandleResponse d2 ⟨code, body⟩ =
          Except.error ("status code: " ++ toString code ++ ", body: " ++ body) ∧
        getAvailableFundsHandleResponse d3 ⟨code, body⟩ =
          Except.error ("status code: " ++ toString code ++ ", body: " ++ body) := by
  intro code body h α β γ d1 d2 d3
  refine ⟨?_, ?_, ?_⟩ <;>
    simp [createGiftCardHandleResponse, cancelGiftCardHandleResponse,
      getAvailableFundsHandleResponse, h]

/-- C10 witness: status 500 with body `denied` yields the formatted error in
all three operations. -/
theorem non200_status_error_witness :
    (500 : Nat) ≠ 200 ∧
    createGiftCardHandleResponse (fun _ => Except.ok (0 : Nat)) ⟨500, "denied"⟩ =
      Except.error "status code: 500, body: denied" ∧
    cancelGiftCardHandleResponse (fun _ => Except.ok (0 : Nat)) ⟨500, "denied"⟩ =
      Except.error "status code: 500, body: denied" ∧
    getAvailableFundsHandleResponse (fun _ => Except.ok (0 : Nat)) ⟨500, "denied"⟩ =
      Except.error "status code: 500, body: denied" := by
  have h := non200_status_error 500 "denied" (by decide) Nat Nat Nat
    (fun _ => Except.ok 0) (fun _ => Except.ok 0) (fun _ => Except.ok 0)
  exact ⟨by decide, h.1, h.2.1, h.2.2⟩

end Agcod
